import Mathlib

/-!
Verification of the voice-test-framework simulator against its
natural-language specification.

This file gives a shallow embedding, in Lean 4, of the parts of the
`voice_test_framework` Python package that the checked claims are about:

* `simulation/network.py`  — `NetworkSimulator` (profiles, `apply`)
* `simulation/noise.py`    — `NoiseEngine.mix_with_speech`
* `core/clock.py`          — `SimulatedClock`
* `tools/registry.py`      — `MockToolRegistry.handle_call` / `wait_for_call`
* `reporting/regression.py`— `RegressionDetector.check`
* `core/orchestrator.py`   — timeline parsing, the dispatch loop, and
  `_enqueue_timeline`

Modelling conventions:

* Python `float` values (times, rates, latencies) are modelled as `ℚ`.
  Every operation the claims touch is order/arithmetic comparison, addition,
  division by constants and `max`, all of which are exact in IEEE doubles for
  the magnitudes involved, so `ℚ` is a faithful abstraction.
* PCM audio data (`bytes` with `sample_width = 2`) is modelled as the list of
  its signed 16-bit samples (`List ℤ`, each in `[-32768, 32767]`).
* Randomness (`random.random()`, `random.gauss`, `numpy` RNG output) is
  modelled by explicit oracle parameters: each draw the Python code makes is
  an input of the Lean function, quantified in the theorems.
* Cooperative-concurrency effects (which tasks get signalled, in which order
  side effects happen around an `await`) are modelled by making the relevant
  functions return explicit traces / signalled-waiter lists.
-/

namespace VoiceTest

/-- Scalar values carried in tool-call argument maps (`dict[str, Any]` in the
source).  A small closed universe suffices for the claims about argument
matching; only decidable equality of values is ever used by the code. -/
inductive JsonVal where
  | s (v : String)
  | i (v : ℤ)
  | b (v : Bool)
  | null
deriving DecidableEq

/-- Raw PCM audio chunk (`core/interfaces.py`, `AudioChunk`): its int16
samples, the clock timestamp, and the sample rate. -/
structure AudioChunk where
  data : List ℤ
  timestamp : ℚ
  sample_rate : ℕ
deriving DecidableEq

/-- Clipping of a sum of samples to the signed-16-bit range, as done by
`np.clip(mixed, -32768, 32767).astype(np.int16)` in `noise.py`. -/
def clip16 (x : ℤ) : ℤ := max (-32768) (min 32767 x)

/-! ## Network simulator (`simulation/network.py`) -/

/-- One named network profile: `{latency, jitter, loss}`. -/
structure NetProfile where
  latency : ℚ
  jitter : ℚ
  loss : ℚ
deriving DecidableEq

/-- The `NetworkSimulator.PROFILES` table, verbatim from the source. -/
def PROFILES : List (String × NetProfile) :=
  [ ("perfect",  ⟨10, 2, 0⟩)
  , ("good_4g",  ⟨50, 15, 1/100⟩)
  , ("poor_4g",  ⟨150, 50, 5/100⟩)
  , ("bad_wifi", ⟨200, 100, 10/100⟩)
  , ("elevator", ⟨500, 200, 30/100⟩) ]

/-- Profile lookup with fallback, `self.PROFILES.get(profile, self.PROFILES["perfect"])`.
The `dict.get` with a default never raises; an unknown name yields the
`"perfect"` entry. -/
def profiles_get (profile : String) : NetProfile :=
  (PROFILES.lookup profile).getD ⟨10, 2, 0⟩

/-- Mutable state of a `NetworkSimulator` instance. -/
structure NetworkSimulator where
  base_latency : ℚ
  jitter : ℚ
  loss_rate : ℚ
  bandwidth_limit : Option ℕ
  is_connected : Bool
  buffer : List AudioChunk

/-- The `NetworkSimulator.__init__` constructor: the profile is looked up with
fallback, and each explicit keyword argument (when not `None`) overrides the
profile value. -/
def NetworkSimulator.init (profile : String)
    (latency_ms jitter_ms loss_rate : Option ℚ) (bandwidth_limit : Option ℕ) :
    NetworkSimulator :=
  let p := profiles_get profile
  { base_latency := latency_ms.getD p.latency
  , jitter := jitter_ms.getD p.jitter
  , loss_rate := loss_rate.getD p.loss
  , bandwidth_limit := bandwidth_limit
  , is_connected := true
  , buffer := [] }

/-- Model of `NetworkSimulator.configure`: each non-`None` argument overwrites the
corresponding field. -/
def NetworkSimulator.configure (st : NetworkSimulator)
    (latency_ms jitter_ms loss_rate : Option ℚ) : NetworkSimulator :=
  { st with
    base_latency := latency_ms.getD st.base_latency
  , jitter := jitter_ms.getD st.jitter
  , loss_rate := loss_rate.getD st.loss_rate }

/-- Model of `NetworkSimulator.set_profile`: look the name up with fallback and
`configure` with all three values. -/
def NetworkSimulator.set_profile (st : NetworkSimulator) (profile : String) :
    NetworkSimulator :=
  let p := profiles_get profile
  st.configure (some p.latency) (some p.jitter) (some p.loss)

/-- Keep the elements at even positions of a list (`pairs[::2]` at the level
of 2-byte samples). -/
def every_other : List ℤ → List ℤ
  | [] => []
  | [x] => [x]
  | x :: _ :: rest => x :: every_other rest

/-- Model of `NetworkSimulator._compress_audio`: when `bandwidth_limit` is set (truthy)
and below 64000, drop every other sample, duplicate the result and truncate
back to the original length. -/
def NetworkSimulator.compress_audio (st : NetworkSimulator) (chunk : AudioChunk) :
    AudioChunk :=
  match st.bandwidth_limit with
  | none => chunk
  | some b =>
    if 0 < b ∧ b < 64000 then
      let reduced := every_other chunk.data ++ every_other chunk.data
      { chunk with data := reduced.take chunk.data.length }
    else chunk

/-- The latency slept by `apply`: `max(0, latency + Gaussian(0, jitter))` ms
(`gauss_draw` is the value drawn from `random.gauss(0, self.jitter)`). -/
def NetworkSimulator.apply_delay (st : NetworkSimulator) (gauss_draw : ℚ) : ℚ :=
  max 0 (st.base_latency + gauss_draw)

/-- Model of `NetworkSimulator.apply`: buffer-and-drop when disconnected, drop when the
`random.random()` draw `loss_draw` is below `loss_rate`, otherwise sleep the
latency and return the (possibly bandwidth-degraded) chunk.
Returns the delivered chunk (`none` = DROP) and the updated simulator state. -/
def NetworkSimulator.apply (st : NetworkSimulator) (chunk : AudioChunk)
    (loss_draw gauss_draw : ℚ) : Option AudioChunk × NetworkSimulator :=
  if st.is_connected = false then
    (none, { st with buffer := st.buffer ++ [chunk] })
  else if loss_draw < st.loss_rate then
    (none, st)
  else
    -- the caller suspends for `apply_delay st gauss_draw / 1000` seconds here
    match st.bandwidth_limit with
    | none => (some chunk, st)
    | some b => if b ≠ 0 then (some (st.compress_audio chunk), st) else (some chunk, st)

/-! ## Noise engine (`simulation/noise.py`)

`AmbientProfile.next_chunk` and `TransientNoise.next_chunk` synthesise int16
sample arrays using `numpy` floating-point sine/RNG primitives; their outputs
enter `mix_with_speech` only as opaque sample vectors.  They are therefore
modelled as oracle inputs (`ambient_noise`, `transient_chunks`), constrained
in each theorem exactly as the corresponding claim constrains them.  The
mixing arithmetic itself (`float32` sum of int16 layers, clip, cast back to
int16) is exact for the layer counts involved (sums stay far below `2^24`),
so it is embedded as exact integer arithmetic. -/

/-- An active transient noise event (`TransientNoise`). -/
structure TransientNoise where
  source : String
  duration : ℚ
  peak_db : ℚ
  elapsed : ℚ
  sr : ℕ
deriving DecidableEq

/-- Model of `TransientNoise.is_active`: still within its duration. -/
def TransientNoise.is_active (t : TransientNoise) : Bool :=
  decide (t.elapsed < t.duration)

/-- Continuous ambient noise profile (`AmbientProfile`): its sample output is
an RNG oracle, see the section comment. -/
structure AmbientProfile where
  name : String
  snr_db : ℚ
  sr : ℕ
deriving DecidableEq

/-- Mutable state of a `NoiseEngine` instance. -/
structure NoiseEngine where
  sample_rate : ℕ
  active_transients : List TransientNoise
  ambient : AmbientProfile
deriving DecidableEq

/-- Model of `NoiseEngine.mix_with_speech`: decode the speech samples, lazily retire
inactive transients, sum speech + ambient + all active transient layers
elementwise, clip to int16 and rebuild a chunk with the same timestamp and
sample rate.  `ambient_noise` is the sample vector produced by
`self.ambient.next_chunk(num_samples)` and `transient_chunks` the vectors
produced by the active transients' `next_chunk` calls (RNG/sine oracles).
Each active transient's `_elapsed` advances by `num_samples / sr`. -/
def NoiseEngine.mix_with_speech (eng : NoiseEngine) (speech_chunk : AudioChunk)
    (ambient_noise : List ℤ) (transient_chunks : List (List ℤ)) :
    AudioChunk × NoiseEngine :=
  let speech := speech_chunk.data
  let num_samples := speech.length
  let active := eng.active_transients.filter (fun t => t.is_active)
  let layers := ambient_noise :: transient_chunks
  let mixed := (layers.foldl (List.zipWith (· + ·)) speech).map clip16
  ( { data := mixed
    , timestamp := speech_chunk.timestamp
    , sample_rate := speech_chunk.sample_rate }
  , { eng with
      active_transients :=
        active.map (fun t => { t with elapsed := t.elapsed + (num_samples : ℚ) / (t.sr : ℚ) }) } )

/-! ## The `user_speak` audio pipeline (`orchestrator.py`, `_dispatch`)

For each generated chunk: mix with the environment layer when present, pass
through the network layer when present (a `None` result is a lost packet and
is not forwarded), then `system.push_audio(chunk)`.  The model returns the
list of chunks actually pushed to the SUT together with the final layer
states.  Oracle inputs are indexed by chunk position. -/

/-- One step of the `user_speak` chunk loop body (environment and network both
optional, exactly as in the dispatcher). -/
def speak_step (env : Option NoiseEngine) (net : Option NetworkSimulator)
    (chunk : AudioChunk) (ambient_noise : List ℤ) (transient_chunks : List (List ℤ))
    (loss_draw gauss_draw : ℚ) :
    Option AudioChunk × Option NoiseEngine × Option NetworkSimulator :=
  let (chunk1, env1) :=
    match env with
    | none => (chunk, none)
    | some e =>
      let r := e.mix_with_speech chunk ambient_noise transient_chunks
      (r.1, some r.2)
  match net with
  | none => (some chunk1, env1, none)
  | some n =>
    let r := n.apply chunk1 loss_draw gauss_draw
    (r.1, env1, some r.2)

/-- The full `user_speak` loop over a finite generated chunk stream: returns
the chunks pushed to `system.push_audio`.  `noise_oracle i` and
`net_oracle i` supply the RNG draws consumed while processing chunk `i`. -/
def push_audio_stream (env : Option NoiseEngine) (net : Option NetworkSimulator)
    (chunks : List AudioChunk)
    (noise_oracle : ℕ → List ℤ × List (List ℤ)) (net_oracle : ℕ → ℚ × ℚ)
    (i : ℕ) : List AudioChunk :=
  match chunks with
  | [] => []
  | c :: rest =>
    let r := speak_step env net c (noise_oracle i).1 (noise_oracle i).2
      (net_oracle i).1 (net_oracle i).2
    let tail := push_audio_stream r.2.1 r.2.2 rest noise_oracle net_oracle (i + 1)
    match r.1 with
    | none => tail
    | some c1 => c1 :: tail

/-! ## Simulated clock (`core/clock.py`) -/

/-- A registered `wait_until` continuation: its target time and the state of
its `asyncio.Event`. -/
structure ClockWaiter where
  target : ℚ
  event_set : Bool
deriving DecidableEq

/-- Mutable state of a `SimulatedClock`. -/
structure SimulatedClock where
  current : ℚ
  realtime : Bool
  waiters : List ClockWaiter
deriving DecidableEq

/-- Model of `SimulatedClock.now`. -/
def SimulatedClock.now (c : SimulatedClock) : ℚ := c.current

/-- Model of `SimulatedClock._wake_waiters`: set the event of every waiter whose target
has been reached and keep only the still-waiting ones.  Returns the new clock
state and the list of waiters signalled by this call. -/
def SimulatedClock.wake_waiters (c : SimulatedClock) :
    SimulatedClock × List ClockWaiter :=
  ( { c with waiters := c.waiters.filter (fun w => decide (c.current < w.target)) }
  , (c.waiters.filter (fun w => decide (w.target ≤ c.current))).map
      (fun w => { w with event_set := true }) )

/-- Model of `SimulatedClock.advance_to`: no-op when `target ≤ current` (nobody is
signalled); otherwise (after a wall-clock sleep in real-time mode, which does
not affect the simulated time) set the time and wake the eligible waiters.
Returns the new state and the waiters signalled before the call returns. -/
def SimulatedClock.advance_to (c : SimulatedClock) (target : ℚ) :
    SimulatedClock × List ClockWaiter :=
  if target ≤ c.current then (c, [])
  else SimulatedClock.wake_waiters { c with current := target }

/-- Model of `SimulatedClock.advance_by`. -/
def SimulatedClock.advance_by (c : SimulatedClock) (delta : ℚ) :
    SimulatedClock × List ClockWaiter :=
  c.advance_to (c.current + delta)

/-- The registration step of `SimulatedClock.wait_until`: return immediately
when the target has been reached, otherwise append a fresh (unset) waiter. -/
def SimulatedClock.wait_until_register (c : SimulatedClock) (target : ℚ) :
    SimulatedClock :=
  if c.current ≥ target then c
  else { c with waiters := c.waiters ++ [⟨target, false⟩] }

/-- Model of `SimulatedClock.reset`. -/
def SimulatedClock.reset (c : SimulatedClock) : SimulatedClock :=
  { c with current := 0, waiters := [] }

/-! ## Mock tool registry (`tools/registry.py`) -/

/-- An entry of `MockToolRegistry.call_log`:
`{"tool": ..., "args": ..., "timestamp": ...}`. -/
structure CallRec where
  tool : String
  args : List (String × JsonVal)
  timestamp : ℚ
deriving DecidableEq

/-- Configuration of one mocked tool (`ToolMock`).  The handler is an
arbitrary pure function of the argument map (awaitable handlers resolve to
the same value). -/
structure ToolMock where
  handler : List (String × JsonVal) → JsonVal
  latency_lo : ℚ
  latency_hi : ℚ
  failure_rate : ℚ
  failure_error : String

/-- A `ToolResult` (`core/interfaces.py`) as produced by `handle_call`. -/
structure ToolResult where
  success : Bool
  data : Option JsonVal
  error : Option String
  latency_ms : ℚ
deriving DecidableEq

/-- Registry state.  `pending_expectations` keeps only each expectation's
`tool_name` (its `asyncio.Event` is represented by membership in the
signalled-set of the traces below); `clock_now` is the value `self._now()`
returns. -/
structure MockToolRegistry where
  tools : List (String × ToolMock)
  call_log : List CallRec
  pending_expectations : List String
  clock_now : ℚ

/-- One observable step of `handle_call`, in program order. -/
inductive RegistryStep where
  | append_log (rec : CallRec)
  | signal (tool_name : String)
  | latency_sleep (seconds : ℚ)
  | return_result (r : ToolResult)
deriving DecidableEq

/-- Steps that make a concurrent `wait_for_call` observe the call's arrival:
the `call_log.append` and the `exp.received.set()` signals. -/
def RegistryStep.is_arrival : RegistryStep → Bool
  | .append_log _ => true
  | .signal _ => true
  | _ => false

/-- Coarse program-order phase of a step: arrival bookkeeping (0), the
latency sleep (1), returning (2). -/
def RegistryStep.phase : RegistryStep → ℕ
  | .append_log _ => 0
  | .signal _ => 0
  | .latency_sleep _ => 1
  | .return_result _ => 2

/-- The sequence of observable steps one execution of
`MockToolRegistry.handle_call(tool_name, args)` performs, in source order:
append the record to `call_log`; signal every pending expectation with a
matching `tool_name`; if the tool is unknown, return the error result with no
sleep; otherwise sleep the drawn latency, then return either the injected
failure or the handler result.  `latency_draw` is the value of
`random.uniform(*mock.latency)` (in ms) and `failure_draw` the
`random.random()` draw compared against `failure_rate`. -/
def MockToolRegistry.handle_call_trace (reg : MockToolRegistry)
    (tool_name : String) (args : List (String × JsonVal))
    (latency_draw failure_draw : ℚ) : List RegistryStep :=
  let record : CallRec := ⟨tool_name, args, reg.clock_now⟩
  let signals := (reg.pending_expectations.filter (fun t => t == tool_name)).map
    RegistryStep.signal
  match reg.tools.lookup tool_name with
  | none =>
    RegistryStep.append_log record :: signals ++
      [RegistryStep.return_result
        ⟨false, none, some ("Unknown tool: " ++ tool_name), 0⟩]
  | some mock =>
    let latency := latency_draw / 1000
    RegistryStep.append_log record :: signals ++
      RegistryStep.latency_sleep latency ::
      (if failure_draw < mock.failure_rate then
        [RegistryStep.return_result ⟨false, none, some mock.failure_error, latency * 1000⟩]
      else
        [RegistryStep.return_result ⟨true, some (mock.handler args), none, latency * 1000⟩])

/-- A value stored in `AssertionResult.expected` by `wait_for_call`: either
absent, the timeout-case dict `{"tool": ..., "args": ...}`, or the expected
argument map itself. -/
inductive ExpectedField where
  | absent
  | tool_and_args (tool : String) (args : Option (List (String × JsonVal)))
  | arg_map (args : List (String × JsonVal))
deriving DecidableEq

/-- An `AssertionResult` (`core/results.py`) as produced by the registry. -/
structure AssertionResult where
  timestamp : ℚ
  passed : Bool
  description : String
  expected : ExpectedField
  actual : Option (List (String × JsonVal))
deriving DecidableEq

/-- Outcome of `asyncio.wait_for(exp.received.wait(), timeout=timeout)`:
`signal_delay` is the time (seconds after the wait starts) at which a
matching `handle_call` sets the expectation's event, or `none` when no
matching call arrives.  CPython's `wait_for` with `timeout ≤ 0` checks the
freshly created (hence never completed) `event.wait()` task once and raises
`TimeoutError` without letting it run, so a non-positive timeout can never be
won, even by an already-set event. -/
def wait_signaled (timeout : ℚ) (signal_delay : Option ℚ) : Bool :=
  match signal_delay with
  | none => false
  | some d => if timeout ≤ 0 then false else decide (d < timeout)

/-- Model of `MockToolRegistry.wait_for_call(tool_name, expected_args, timeout)`,
resolved against `reg`, the registry state at the moment the wait concludes
(on the signal path its `call_log` includes the signalling call).  On
timeout: a failed result with the timeout description.  On signal: find the
calls with this tool name; if none, a failed result; otherwise take the most
recent one and, when `expected_args` is supplied, fail on the first expected
key *absent* from the call's args — the source compares only key presence
(the loop binds each expected value but never reads it), so a present key
with a different value does not fail — and otherwise succeed. -/
def MockToolRegistry.wait_for_call (reg : MockToolRegistry) (tool_name : String)
    (expected_args : Option (List (String × JsonVal))) (timeout : ℚ)
    (signal_delay : Option ℚ) : AssertionResult :=
  if wait_signaled timeout signal_delay = false then
    { timestamp := reg.clock_now
    , passed := false
    , description := "Timeout waiting for tool " ++ tool_name
    , expected := .tool_and_args tool_name expected_args
    , actual := none }
  else
    let calls := reg.call_log.filter (fun c => c.tool == tool_name)
    match calls.getLast? with
    | none =>
      { timestamp := reg.clock_now
      , passed := false
      , description := "Tool " ++ tool_name ++ " was never called"
      , expected := .absent
      , actual := none }
    | some last_call =>
      let missing : Option (String × JsonVal) :=
        match expected_args with
        | none => none
        | some exp => exp.find? (fun kv => !(last_call.args.lookup kv.1).isSome)
      match missing with
      | some kv =>
        { timestamp := reg.clock_now
        , passed := false
        , description := "Missing arg " ++ kv.1 ++ " in " ++ tool_name ++ " call"
        , expected := match expected_args with
                      | some exp => .arg_map exp
                      | none => .absent
        , actual := some last_call.args }
      | none =>
        { timestamp := reg.clock_now
        , passed := true
        , description := "Tool " ++ tool_name ++ " called successfully"
        , expected := .absent
        , actual := some last_call.args }

/-! ## Regression detector (`reporting/regression.py`)

`check` compares the flattened current metrics against a loaded baseline
map.  Both maps are modelled as association lists (`_extract_metrics`
produces distinct keys; nothing below relies on distinctness).  The
`round(delta * 100, 2)` applied to `delta_pct` in the source is display
rounding; the stored field is modelled as the exact `delta * 100`. -/

/-- One entry of `RegressionResult.regressions` / `improvements`. -/
structure RegressionEntry where
  metric : String
  baseline : ℚ
  current : ℚ
  delta_pct : ℚ
deriving DecidableEq

/-- Model of `RegressionResult`. -/
structure RegressionResult where
  has_regression : Bool
  regressions : List RegressionEntry
  improvements : List RegressionEntry
  unchanged : List String
deriving DecidableEq

/-- The loop body of `RegressionDetector.check` for one current metric:
skip metrics with no baseline; classify a zero baseline as unchanged;
otherwise compare the relative delta against the threshold. -/
def regression_step (threshold : ℚ) (baseline : List (String × ℚ))
    (acc : List RegressionEntry × List RegressionEntry × List String)
    (kv : String × ℚ) :
    List RegressionEntry × List RegressionEntry × List String :=
  match baseline.lookup kv.1 with
  | none => acc
  | some b =>
    if b = 0 then (acc.1, acc.2.1, acc.2.2 ++ [kv.1])
    else
      let delta := (kv.2 - b) / |b|
      if delta < -threshold then
        (acc.1 ++ [⟨kv.1, b, kv.2, delta * 100⟩], acc.2.1, acc.2.2)
      else if delta > threshold then
        (acc.1, acc.2.1 ++ [⟨kv.1, b, kv.2, delta * 100⟩], acc.2.2)
      else
        (acc.1, acc.2.1, acc.2.2 ++ [kv.1])

/-- Model of `RegressionDetector.check` after a baseline was found: fold the loop body
over the current metrics and report a regression iff the regression list is
non-empty. -/
def regression_check (threshold : ℚ) (current_metrics baseline : List (String × ℚ)) :
    RegressionResult :=
  let acc := current_metrics.foldl (regression_step threshold baseline) ([], [], [])
  { has_regression := !acc.1.isEmpty
  , regressions := acc.1
  , improvements := acc.2.1
  , unchanged := acc.2.2 }

/-! ## Scenario orchestrator (`core/orchestrator.py`)

The claims about the orchestrator concern the timeline priority queue: how
`_enqueue_timeline` assigns timestamps and sequence numbers, and how many
assertions the `run` loop appends.  The embedding models the queue, the
dispatch order and, for each dispatched event, its effect on the queue and on
`len(results.assertions)`.  Handlers that touch neither (audio/video/noise
pushes, clock waits, `set_network`, unknown actions, …) are collapsed into
the catch-all case of `dispatch_effect`; their effects are modelled
separately (`push_audio_stream`, `SimulatedClock`, …).  Exceptions escaping a
handler are modelled by an oracle `raises` consulted before the handler's
side effects; in the source an exception can also interrupt a handler midway,
which changes neither the assertion count nor the queue-extension behaviour
stated below. -/

/-- A well-formed `at:` time value of a raw timeline entry: `"Xms"`, `"Xs"`,
or a bare number (the argument is the numeric payload). -/
inductive TimeVal where
  | ms (x : ℚ)
  | sec (x : ℚ)
  | bare (x : ℚ)
deriving DecidableEq

/-- Model of `ScenarioOrchestrator._parse_time` on well-formed values: `Xms` becomes
`X / 1000` seconds, `Xs` becomes `X` seconds, a bare number is seconds. -/
def parse_time : TimeVal → ℚ
  | .ms x => x / 1000
  | .sec x => x
  | .bare x => x

/-- A raw YAML timeline entry, before parsing: an `at:` time, an action name,
the `condition` parameter and the `branches` parameter (both empty/unused for
non-`conditional` actions).  The remaining action-specific parameters do not
affect the queue or the assertion count and are omitted. -/
inductive Entry where
  | mk (timeAt : TimeVal) (action : String) (condition : String)
       (branches : List (String × List Entry))

/-- The `at:` field of an entry. -/
def Entry.timeAt : Entry → TimeVal
  | .mk t _ _ _ => t

/-- The `action:` field of an entry. -/
def Entry.action : Entry → String
  | .mk _ a _ _ => a

/-- The `condition` parameter of an entry. -/
def Entry.condition : Entry → String
  | .mk _ _ c _ => c

/-- The `branches` parameter of an entry. -/
def Entry.branches : Entry → List (String × List Entry)
  | .mk _ _ _ b => b

/-- A parsed `TimelineEvent`: `{timestamp, _seq, action, params}`, ordered by
`(timestamp, _seq)` in the priority queue. -/
structure TimelineEvent where
  timestamp : ℚ
  seq : ℕ
  action : String
  condition : String
  branches : List (String × List Entry)

/-- Model of `ScenarioOrchestrator._enqueue_timeline`: for each raw entry in order,
parse its own `at:` value, increment the monotone sequence counter and put
the event on the queue.  Returns the extended queue and the new counter. -/
def enqueue_timeline : List Entry → List TimelineEvent → ℕ →
    List TimelineEvent × ℕ
  | [], timeline, seq => (timeline, seq)
  | e :: rest, timeline, seq =>
    enqueue_timeline rest
      (timeline ++ [⟨parse_time e.timeAt, seq + 1, e.action, e.condition, e.branches⟩])
      (seq + 1)

/-- The explicit form of the events `enqueue_timeline` appends for a list of
entries starting at sequence counter `seq`. -/
def parsed_entries (seq : ℕ) : List Entry → List TimelineEvent
  | [] => []
  | e :: rest =>
    ⟨parse_time e.timeAt, seq + 1, e.action, e.condition, e.branches⟩ ::
      parsed_entries (seq + 1) rest

/-- The priority-queue order on parsed events: `@dataclass(order=True)`
compares `(timestamp, _seq)` lexicographically (`action` and `params` carry
`compare=False`). -/
def timeline_le (a b : TimelineEvent) : Bool :=
  decide (a.timestamp < b.timestamp ∨ (a.timestamp = b.timestamp ∧ a.seq ≤ b.seq))

/-- Model of `self.timeline.get()` on a non-empty queue: remove and return the least
event under `timeline_le`.  (Sequence numbers are unique in a run, so the
minimum is unique; any stable choice models `PriorityQueue`.) -/
def timeline_get : List TimelineEvent → Option (TimelineEvent × List TimelineEvent)
  | [] => none
  | e :: rest =>
    match timeline_get rest with
    | none => some (e, [])
    | some (m, rest2) =>
      if timeline_le e m then some (e, rest) else some (m, e :: rest2)

/-- Model of `ScenarioOrchestrator._eval_condition`: the source is a stub that ignores
the condition string and always selects the `"default"` branch. -/
def eval_condition (condition : String) : String := "default"

/-- Run-wide context for the dispatch loop: whether a `"tools"` layer is
registered, and the exception oracle (`raises ev = true` models an exception
escaping the dispatch of `ev`, caught by `run` and recorded as one failed
assertion). -/
structure DispatchCtx where
  hasTools : Bool
  raises : TimelineEvent → Bool

/-- The effect of dispatching one popped event on the queue, the sequence
counter and `len(results.assertions)` (returned as the number of appended
assertions): an exception appends one failed assertion; `assert_system`
appends its evaluated assertion; `expect_tool_call` appends the
`wait_for_call` outcome only when a tools layer is registered;
`conditional` looks its resolved branch key up in `branches` and, when
present, enqueues that branch's entries; every other action leaves both the
queue and the assertion list unchanged. -/
def dispatch_effect (ctx : DispatchCtx) (ev : TimelineEvent)
    (timeline : List TimelineEvent) (seq : ℕ) :
    List TimelineEvent × ℕ × ℕ :=
  if ctx.raises ev then (timeline, seq, 1)
  else if ev.action = "assert_system" then (timeline, seq, 1)
  else if ev.action = "expect_tool_call" then
    (timeline, seq, if ctx.hasTools then 1 else 0)
  else if ev.action = "conditional" then
    match ev.branches.lookup (eval_condition ev.condition) with
    | some entries =>
      let r := enqueue_timeline entries timeline seq
      (r.1, r.2, 0)
    | none => (timeline, seq, 0)
  else (timeline, seq, 0)

mutual

/-- Structural weight of a list of raw entries (used as loop fuel): every
entry counts itself plus its nested branch entries. -/
def entries_weight : List Entry → ℕ
  | [] => 0
  | .mk _ _ _ brs :: rest => 1 + branches_weight brs + entries_weight rest

/-- Structural weight of a branches map. -/
def branches_weight : List (String × List Entry) → ℕ
  | [] => 0
  | (_, es) :: rest => entries_weight es + branches_weight rest

end

/-- Structural weight of one parsed event (used as loop fuel): itself plus
its nested branch entries. -/
def event_weight (ev : TimelineEvent) : ℕ :=
  1 + branches_weight ev.branches

/-- Total weight of a queue: an upper bound on the number of events the run
loop can still dispatch (each pop removes one event and – via `conditional` –
can only enqueue events drawn from the popped event's own branches). -/
def timeline_weight (timeline : List TimelineEvent) : ℕ :=
  (timeline.map event_weight).sum

/-- The drain loop of `ScenarioOrchestrator.run`, fuelled: pop the least
event, advance the clock to its timestamp, dispatch it (recording one failed
assertion when the dispatch raises), repeat until the queue is empty.
Returns the dispatch-order event trace and the total number of assertions
appended.  `timeline_weight` fuel always suffices (see
`run_loop_fuel_sufficient`), so the fuelled recursion, started with that
budget by `run_loop`, is the loop. -/
def run_loop_fuel (ctx : DispatchCtx) :
    ℕ → List TimelineEvent → ℕ → List TimelineEvent × ℕ
  | 0, _, _ => ([], 0)
  | fuel + 1, timeline, seq =>
    match timeline_get timeline with
    | none => ([], 0)
    | some (ev, rest) =>
      let step := dispatch_effect ctx ev rest seq
      let next := run_loop_fuel ctx fuel step.1 step.2.1
      (ev :: next.1, step.2.2 + next.2)

/-- The drain loop of `ScenarioOrchestrator.run`. -/
def run_loop (ctx : DispatchCtx) (timeline : List TimelineEvent) (seq : ℕ) :
    List TimelineEvent × ℕ :=
  run_loop_fuel ctx (timeline_weight timeline) timeline seq

/-- Model of `ScenarioOrchestrator.run` on a scenario whose `timeline:` parses to
`entries`: enqueue the entries from a fresh counter, then drain the queue.
Returns the dispatch trace and `len(results.assertions)` at return. -/
def run_scenario (ctx : DispatchCtx) (entries : List Entry) :
    List TimelineEvent × ℕ :=
  let q := enqueue_timeline entries [] 0
  run_loop ctx q.1 q.2

/-- The number of assertions the dispatch of one event appends, phrased
per-event (matches the third component of `dispatch_effect`). -/
def event_contrib (ctx : DispatchCtx) (ev : TimelineEvent) : ℕ :=
  if ctx.raises ev then 1
  else if ev.action = "assert_system" then 1
  else if ev.action = "expect_tool_call" ∧ ctx.hasTools then 1
  else 0

/-! ## Concrete instances used by counterexamples and witnesses -/

/-- A registry whose log holds one `create_booking` call with `nights = 3`. -/
def c1_registry : MockToolRegistry :=
  { tools := []
  , call_log := [⟨"create_booking", [("nights", .i 3)], 0⟩]
  , pending_expectations := []
  , clock_now := 1 }

/-- A registry whose log already holds a matching `create_booking` call. -/
def c3_registry : MockToolRegistry :=
  { tools := []
  , call_log := [⟨"create_booking", [("nights", .i 2)], 0⟩]
  , pending_expectations := []
  , clock_now := 3 }

/-- A registry with one registered tool and two pending expectations, one of
which matches the called tool. -/
def c5_registry : MockToolRegistry :=
  { tools := [("get_weather", ⟨fun _ => .null, 100, 500, 0, "ServiceUnavailable"⟩)]
  , call_log := []
  , pending_expectations := ["get_weather", "other_tool"]
  , clock_now := 2 }

/-- A dispatch context in which no handler raises. -/
def no_raise_ctx (hasTools : Bool) : DispatchCtx :=
  ⟨hasTools, fun _ => false⟩

/-- The branch of the concrete conditional event below: a single
`assert_system` entry at absolute time `1s`. -/
def c2_branch : List Entry :=
  [.mk (.sec 1) "assert_system" "" []]

/-- A conditional event scheduled at `t = 5` whose default branch re-enters
the timeline at the earlier absolute time `1s`. -/
def c2_event : TimelineEvent :=
  ⟨5, 1, "conditional", "", [("default", c2_branch)]⟩

/-- A scenario timeline holding a single `expect_tool_call` event. -/
def c4_entries : List Entry :=
  [.mk (.sec 3) "expect_tool_call" "" []]

/-- The parsed event of `c4_entries`. -/
def c4_event : TimelineEvent :=
  ⟨3, 1, "expect_tool_call", "", []⟩

/-! # Theorems -/

/-- C10: constructing a `NetworkSimulator` with an unknown profile name (and
no explicit overrides), or calling `set_profile` with an unknown name, never
raises — the `dict.get` fallback silently yields the `"perfect"` profile's
parameters: latency 10 ms, jitter 2 ms, loss rate 0. -/
theorem network_unknown_profile_fallback (name : String)
    (h : PROFILES.lookup name = none) :
    (NetworkSimulator.init name none none none none).base_latency = 10 ∧
    (NetworkSimulator.init name none none none none).jitter = 2 ∧
    (NetworkSimulator.init name none none none none).loss_rate = 0 ∧
    ∀ st : NetworkSimulator,
      (st.set_profile name).base_latency = 10 ∧
      (st.set_profile name).jitter = 2 ∧
      (st.set_profile name).loss_rate = 0 := by
  refine ⟨?_, ?_, ?_, fun st => ⟨?_, ?_, ?_⟩⟩ <;>
    simp [NetworkSimulator.init, NetworkSimulator.set_profile,
      NetworkSimulator.configure, profiles_get, h]

/-- Witness for C10 at the concrete unknown profile name `"underwater"`. -/
theorem network_unknown_profile_fallback_witness :
    PROFILES.lookup "underwater" = none ∧
    ((NetworkSimulator.init "underwater" none none none none).base_latency = 10 ∧
     (NetworkSimulator.init "underwater" none none none none).jitter = 2 ∧
     (NetworkSimulator.init "underwater" none none none none).loss_rate = 0 ∧
     ∀ st : NetworkSimulator,
       (st.set_profile "underwater").base_latency = 10 ∧
       (st.set_profile "underwater").jitter = 2 ∧
       (st.set_profile "underwater").loss_rate = 0) :=
  ⟨by decide, network_unknown_profile_fallback "underwater" (by decide)⟩

/-- C1 (code bug): `wait_for_call` compares `expected_args` by key presence
only — the loop variable holding the expected value is never read — so an
expectation signalled by a call whose `nights` argument is `3` *passes*
against `expected_args = {nights: 2}`, although the most recent matching
call's value differs from the expected one.  The claim (and the sibling
`ToolCallAsserter.assert_called`, which does compare values) requires
`passed = false` here. -/
theorem wait_for_call_ignores_arg_values :
    (c1_registry.wait_for_call "create_booking"
        (some [("nights", .i 2)]) 5 (some 1)).passed = true ∧
    ((c1_registry.call_log.filter
        (fun c => c.tool == "create_booking")).getLast?.map CallRec.args)
      = some [("nights", JsonVal.i 3)] ∧
    JsonVal.i 3 ≠ JsonVal.i 2 := by
  decide

/-- C3 (counterexample): an `expect_tool_call` with `timeout_ms = 0` fails
even though a matching call is already in the registry's `call_log` at
dispatch time — the claim says it passes in this situation. -/
theorem wait_timeout_zero_counterexample :
    (∃ c ∈ c3_registry.call_log, c.tool = "create_booking") ∧
    (c3_registry.wait_for_call "create_booking" none 0 none).passed = false := by
  decide

/-- C3 (amended): with `timeout_ms = 0` the `wait_for_call` outcome appended
by `expect_tool_call` always has `passed = false` with the timeout
description: the call log is only consulted after the expectation's event is
awaited, and `asyncio.wait_for` with a non-positive timeout raises
`TimeoutError` before the freshly registered expectation can ever be
signalled — whether or not a matching call is already in `call_log`. -/
theorem wait_timeout_zero_always_fails (reg : MockToolRegistry)
    (tool_name : String) (expected_args : Option (List (String × JsonVal)))
    (signal_delay : Option ℚ) :
    (reg.wait_for_call tool_name expected_args 0 signal_delay).passed = false ∧
    (reg.wait_for_call tool_name expected_args 0 signal_delay).description
      = "Timeout waiting for tool " ++ tool_name := by
  have h : wait_signaled 0 signal_delay = false := by
    cases signal_delay <;> simp [wait_signaled]
  simp [MockToolRegistry.wait_for_call, h]

/-- Characterisation of `_enqueue_timeline`: it appends, in order, the events
`parsed_entries seq entries` and advances the sequence counter by the number
of entries. -/
theorem enqueue_timeline_eq (entries : List Entry) :
    ∀ (timeline : List TimelineEvent) (seq : ℕ),
      enqueue_timeline entries timeline seq
        = (timeline ++ parsed_entries seq entries, seq + entries.length) := by
  induction entries with
  | nil => intro timeline seq; simp [enqueue_timeline, parsed_entries]
  | cons e rest ih =>
    intro timeline seq
    simp only [enqueue_timeline, parsed_entries, ih, List.append_assoc,
      List.singleton_append, List.length_cons]
    rw [Prod.mk.injEq]
    exact ⟨rfl, by omega⟩

/-- The timestamps `parsed_entries` assigns are exactly each entry's own
parsed `at:` value. -/
theorem parsed_entries_timestamps (entries : List Entry) :
    ∀ seq : ℕ,
      (parsed_entries seq entries).map TimelineEvent.timestamp
        = entries.map (fun e => parse_time e.timeAt) := by
  induction entries with
  | nil => intro seq; simp [parsed_entries]
  | cons e rest ih => intro seq; simp [parsed_entries, ih]

/-- C2 (counterexample): dispatching the conditional event `c2_event`
(timestamp 5) enqueues its default branch entry with timestamp 1 — its own
absolute `at: 1s` value — so not every newly enqueued event has a timestamp
greater than or equal to the conditional's. -/
theorem conditional_timestamp_counterexample :
    ¬ ∀ ev ∈ (dispatch_effect (no_raise_ctx true) c2_event [] 1).1,
        c2_event.timestamp ≤ ev.timestamp := by
  decide

/-- C2 (amended): when a `conditional` event resolves (to the `"default"`
branch) and its branch entries are enqueued, each newly enqueued
`TimelineEvent` carries the timestamp parsed from its *own* `at:` field —
absolute, neither offset by nor clamped to the conditional's timestamp — so
the new timestamps are independent of the conditional's own timestamp and
may be smaller than it. -/
theorem conditional_enqueue_uses_branch_times (ctx : DispatchCtx)
    (ev : TimelineEvent) (timeline : List TimelineEvent) (seq : ℕ)
    (entries : List Entry)
    (hact : ev.action = "conditional") (hr : ctx.raises ev = false)
    (hb : ev.branches.lookup "default" = some entries) :
    (dispatch_effect ctx ev timeline seq).1
      = timeline ++ parsed_entries seq entries ∧
    (parsed_entries seq entries).map TimelineEvent.timestamp
      = entries.map (fun e => parse_time e.timeAt) := by
  refine ⟨?_, parsed_entries_timestamps entries seq⟩
  have h1 : ev.action ≠ "assert_system" := by rw [hact]; decide
  have h2 : ev.action ≠ "expect_tool_call" := by rw [hact]; decide
  simp [dispatch_effect, hr, h1, h2, hact, eval_condition, hb,
    enqueue_timeline_eq]

/-- Witness for C2's amended theorem at the concrete conditional `c2_event`:
its branch entry is enqueued at its own time `1`, below the conditional's
timestamp `5`. -/
theorem conditional_enqueue_uses_branch_times_witness :
    ((dispatch_effect (no_raise_ctx true) c2_event [] 1).1
       = [] ++ parsed_entries 1 c2_branch ∧
     (parsed_entries 1 c2_branch).map TimelineEvent.timestamp
       = c2_branch.map (fun e => parse_time e.timeAt)) ∧
    (parsed_entries 1 c2_branch).map TimelineEvent.timestamp = [1] ∧
    ¬ (c2_event.timestamp ≤ 1) :=
  ⟨conditional_enqueue_uses_branch_times (no_raise_ctx true) c2_event [] 1
      c2_branch rfl rfl rfl,
   by decide, by decide⟩

/-- The assertion count reported by `dispatch_effect` is `event_contrib`. -/
theorem dispatch_effect_contrib (ctx : DispatchCtx) (ev : TimelineEvent)
    (timeline : List TimelineEvent) (seq : ℕ) :
    (dispatch_effect ctx ev timeline seq).2.2 = event_contrib ctx ev := by
  by_cases hr : ctx.raises ev
  · simp [dispatch_effect, event_contrib, hr]
  · by_cases h1 : ev.action = "assert_system"
    · simp [dispatch_effect, event_contrib, hr, h1]
    · by_cases h2 : ev.action = "expect_tool_call"
      · by_cases ht : ctx.hasTools <;>
          simp [dispatch_effect, event_contrib, hr, h1, h2, ht]
      · by_cases h3 : ev.action = "conditional"
        · cases hb : ev.branches.lookup (eval_condition ev.condition) <;>
            simp [dispatch_effect, event_contrib, hr, h1, h2, h3, hb]
        · simp [dispatch_effect, event_contrib, hr, h1, h2, h3]

/-- For any fuel, the assertion total of the fuelled run loop is the sum of
the per-event contributions along its dispatch trace. -/
theorem run_loop_fuel_count (ctx : DispatchCtx) :
    ∀ (fuel : ℕ) (timeline : List TimelineEvent) (seq : ℕ),
      (run_loop_fuel ctx fuel timeline seq).2
        = ((run_loop_fuel ctx fuel timeline seq).1.map (event_contrib ctx)).sum := by
  intro fuel
  induction fuel with
  | zero => intro timeline seq; simp [run_loop_fuel]
  | succ n ih =>
    intro timeline seq
    cases hget : timeline_get timeline with
    | none => simp [run_loop_fuel, hget]
    | some p =>
      obtain ⟨ev, rest⟩ := p
      simp only [run_loop_fuel, hget, List.map_cons, List.sum_cons]
      rw [ih, dispatch_effect_contrib]

/-- Splitting the contribution sum over a dispatch trace into the three
disjoint per-event counts. -/
theorem contrib_sum_eq_filter_counts (ctx : DispatchCtx)
    (trace : List TimelineEvent) :
    (trace.map (event_contrib ctx)).sum
      = (trace.filter
          (fun ev => !ctx.raises ev && decide (ev.action = "assert_system"))).length
      + (trace.filter
          (fun ev => !ctx.raises ev && decide (ev.action = "expect_tool_call")
            && ctx.hasTools)).length
      + (trace.filter (fun ev => ctx.raises ev)).length := by
  induction trace with
  | nil => simp
  | cons ev rest ih =>
    have key : event_contrib ctx ev
        = (if (!ctx.raises ev && decide (ev.action = "assert_system")) = true
            then 1 else 0)
        + (if (!ctx.raises ev && decide (ev.action = "expect_tool_call")
              && ctx.hasTools) = true then 1 else 0)
        + (if ctx.raises ev = true then 1 else 0) := by
      unfold event_contrib
      by_cases hr : ctx.raises ev
      · simp [hr]
      · by_cases h1 : ev.action = "assert_system"
        · have h2 : ev.action ≠ "expect_tool_call" := by rw [h1]; decide
          simp [hr, h1, h2]
        · by_cases h2 : ev.action = "expect_tool_call"
          · by_cases ht : ctx.hasTools <;> simp [hr, h1, h2, ht]
          · simp [hr, h1, h2]
    simp only [List.map_cons, List.sum_cons, List.filter_cons]
    rw [key, ih]
    generalize (!ctx.raises ev && decide (ev.action = "assert_system")) = A
    generalize (!ctx.raises ev && decide (ev.action = "expect_tool_call")
        && ctx.hasTools) = B
    generalize ctx.raises ev = C
    cases A <;> cases B <;> cases C <;> simp <;> omega

/-- C4 (amended): after `run` returns, `len(results.assertions)` equals the
number of dispatched `assert_system` events whose dispatch did not raise,
plus the number of dispatched `expect_tool_call` events whose dispatch did
not raise *and* for which a `"tools"` layer was registered, plus the number
of dispatched events whose dispatch raised an exception.  (The original
claim's count fails when no tools layer is registered, and double-counts an
`assert_system`/`expect_tool_call` event whose dispatch raises.) -/
theorem run_assertion_count (ctx : DispatchCtx) (entries : List Entry) :
    (run_scenario ctx entries).2
      = ((run_scenario ctx entries).1.filter
          (fun ev => !ctx.raises ev && decide (ev.action = "assert_system"))).length
      + ((run_scenario ctx entries).1.filter
          (fun ev => !ctx.raises ev && decide (ev.action = "expect_tool_call")
            && ctx.hasTools)).length
      + ((run_scenario ctx entries).1.filter (fun ev => ctx.raises ev)).length := by
  unfold run_scenario run_loop
  rw [run_loop_fuel_count, contrib_sum_eq_filter_counts]

/-- C4 (counterexample): a scenario holding one `expect_tool_call` event, run
with no `"tools"` layer registered and no dispatch exception, ends with zero
recorded assertions, while the claimed count
`(# assert_system) + (# expect_tool_call) + (# dispatch exceptions)` is 1. -/
theorem run_assertion_count_counterexample :
    (run_scenario (no_raise_ctx false) c4_entries).2
      ≠ ((run_scenario (no_raise_ctx false) c4_entries).1.filter
          (fun ev => decide (ev.action = "assert_system"))).length
        + ((run_scenario (no_raise_ctx false) c4_entries).1.filter
          (fun ev => decide (ev.action = "expect_tool_call"))).length
        + ((run_scenario (no_raise_ctx false) c4_entries).1.filter
          (fun ev => (no_raise_ctx false).raises ev)).length := by
  have hw : timeline_weight [c4_event] = 1 := by
    simp [timeline_weight, event_weight, branches_weight, c4_event]
  have hrun : run_scenario (no_raise_ctx false) c4_entries = ([c4_event], 0) := by
    unfold run_scenario run_loop
    rw [show enqueue_timeline c4_entries [] 0 = ([c4_event], 1) from rfl]
    show run_loop_fuel (no_raise_ctx false) (timeline_weight [c4_event]) [c4_event] 1 = _
    rw [hw]
    rfl
  rw [hrun]
  decide

/-- An empty pop result only happens on the empty queue. -/
theorem timeline_get_eq_none (timeline : List TimelineEvent)
    (h : timeline_get timeline = none) : timeline = [] := by
  cases timeline with
  | nil => rfl
  | cons x xs =>
    exfalso
    cases h2 : timeline_get xs with
    | none => simp [timeline_get, h2] at h
    | some p =>
      rw [show timeline_get (x :: xs)
          = if timeline_le x p.1 then some (x, xs) else some (p.1, x :: p.2) by
        simp [timeline_get, h2]] at h
      by_cases hle : timeline_le x p.1 <;> simp [hle] at h

/-- Popping the least element splits the queue weight. -/
theorem timeline_get_weight :
    ∀ (l : List TimelineEvent) (ev : TimelineEvent) (rest : List TimelineEvent),
      timeline_get l = some (ev, rest) →
      timeline_weight l = event_weight ev + timeline_weight rest := by
  intro l
  induction l with
  | nil => intro ev rest h; simp [timeline_get] at h
  | cons e tail ih =>
    intro ev rest h
    rw [timeline_get] at h
    cases hg : timeline_get tail with
    | none =>
      rw [hg] at h
      have htail : tail = [] := timeline_get_eq_none tail hg
      subst htail
      simp only [Option.some.injEq, Prod.mk.injEq] at h
      obtain ⟨h1, h2⟩ := h
      subst h1; subst h2
      simp [timeline_weight]
    | some p =>
      obtain ⟨m, rest2⟩ := p
      rw [hg] at h
      by_cases hle : timeline_le e m = true
      · simp [hle] at h
        obtain ⟨h1, h2⟩ := h
        subst h1; subst h2
        simp [timeline_weight]
      · simp [hle] at h
        obtain ⟨h1, h2⟩ := h
        subst h1; subst h2
        have hi := ih m rest2 hg
        simp only [timeline_weight, List.map_cons, List.sum_cons] at hi ⊢
        omega

/-- Queue weight is additive under append. -/
theorem timeline_weight_append (a b : List TimelineEvent) :
    timeline_weight (a ++ b) = timeline_weight a + timeline_weight b := by
  simp [timeline_weight]

/-- The parsed form of a branch weighs exactly the branch entries. -/
theorem parsed_entries_weight (entries : List Entry) :
    ∀ seq, timeline_weight (parsed_entries seq entries) = entries_weight entries := by
  induction entries with
  | nil => intro seq; simp [parsed_entries, timeline_weight, entries_weight]
  | cons e rest ih =>
    intro seq
    cases e with
    | mk t a c brs =>
      simp only [parsed_entries, timeline_weight, List.map_cons, List.sum_cons,
        event_weight, Entry.branches, Entry.action, Entry.condition,
        Entry.timeAt, entries_weight]
      have := ih (seq + 1)
      simp only [timeline_weight] at this
      omega

/-- A branch found in a branches map weighs no more than the whole map. -/
theorem lookup_branches_weight (name : String) :
    ∀ (brs : List (String × List Entry)) (entries : List Entry),
      brs.lookup name = some entries →
      entries_weight entries ≤ branches_weight brs := by
  intro brs
  induction brs with
  | nil => intro entries h; simp [List.lookup] at h
  | cons p rest ih =>
    intro entries h
    obtain ⟨n, es⟩ := p
    rw [List.lookup] at h
    cases hn : (name == n) with
    | true =>
      rw [hn] at h
      simp only [Option.some.injEq] at h
      subst h
      simp [branches_weight]
    | false =>
      rw [hn] at h
      have := ih entries h
      simp only [branches_weight]
      omega

/-- Dispatching one popped event leaves strictly less total weight than the
event plus the rest of the queue. -/
theorem dispatch_effect_weight_lt (ctx : DispatchCtx) (ev : TimelineEvent)
    (rest : List TimelineEvent) (seq : ℕ) :
    timeline_weight (dispatch_effect ctx ev rest seq).1
      < event_weight ev + timeline_weight rest := by
  have hev : event_weight ev = 1 + branches_weight ev.branches := rfl
  unfold dispatch_effect
  by_cases hr : ctx.raises ev
  · simp [hr] <;> omega
  · by_cases h1 : ev.action = "assert_system"
    · simp [hr, h1] <;> omega
    · by_cases h2 : ev.action = "expect_tool_call"
      · simp [hr, h1, h2] <;> omega
      · by_cases h3 : ev.action = "conditional"
        · cases hb : ev.branches.lookup (eval_condition ev.condition) with
          | none => simp [hr, h1, h2, h3, hb] <;> omega
          | some entries =>
            have hle := lookup_branches_weight (eval_condition ev.condition)
              ev.branches entries hb
            simp [hr, h1, h2, h3, hb, enqueue_timeline_eq,
              timeline_weight_append, parsed_entries_weight]
            omega
        · simp [hr, h1, h2, h3] <;> omega

/-- With at least `timeline_weight` fuel the fuelled loop computes the same
trace and count as `run_loop`: the fuel cap never binds, so `run_loop` is the
always-terminating drain loop of `ScenarioOrchestrator.run`. -/
theorem run_loop_fuel_sufficient (ctx : DispatchCtx) :
    ∀ (fuel : ℕ) (timeline : List TimelineEvent) (seq : ℕ),
      timeline_weight timeline ≤ fuel →
      run_loop_fuel ctx fuel timeline seq = run_loop ctx timeline seq := by
  intro fuel
  induction fuel using Nat.strong_induction_on with
  | _ fuel ih =>
    intro timeline seq hw
    cases hget : timeline_get timeline with
    | none =>
      have hnil : timeline = [] := timeline_get_eq_none timeline hget
      subst hnil
      cases fuel <;>
        simp [run_loop, run_loop_fuel, timeline_weight, timeline_get]
    | some p =>
      obtain ⟨ev, rest⟩ := p
      have hsplit := timeline_get_weight timeline ev rest hget
      have hevpos : 1 ≤ event_weight ev := by
        rw [show event_weight ev = 1 + branches_weight ev.branches from rfl]
        omega
      have hlt := dispatch_effect_weight_lt ctx ev rest seq
      obtain ⟨n, rfl⟩ : ∃ n, fuel = n + 1 := ⟨fuel - 1, by omega⟩
      obtain ⟨k, hk⟩ : ∃ k, timeline_weight timeline = k + 1 :=
        ⟨timeline_weight timeline - 1, by omega⟩
      unfold run_loop
      rw [hk]
      simp only [run_loop_fuel, hget]
      have e1 : run_loop_fuel ctx n (dispatch_effect ctx ev rest seq).1
            (dispatch_effect ctx ev rest seq).2.1
          = run_loop ctx (dispatch_effect ctx ev rest seq).1
            (dispatch_effect ctx ev rest seq).2.1 :=
        ih n (by omega) _ _ (by omega)
      have e2 : run_loop_fuel ctx k (dispatch_effect ctx ev rest seq).1
            (dispatch_effect ctx ev rest seq).2.1
          = run_loop ctx (dispatch_effect ctx ev rest seq).1
            (dispatch_effect ctx ev rest seq).2.1 :=
        ih k (by omega) _ _ (by omega)
      rw [e1, e2]

/-- A list of equal naturals is sorted. -/
theorem sorted_of_all_eq_zero (l : List ℕ) (h : ∀ x ∈ l, x = 0) :
    l.Sorted (· ≤ ·) := by
  induction l with
  | nil => exact List.sorted_nil
  | cons a rest ih =>
    rw [List.sorted_cons]
    refine ⟨fun b hb => ?_, ih fun x hx => h x (List.mem_cons_of_mem a hx)⟩
    rw [h a (List.mem_cons_self a rest), h b (List.mem_cons_of_mem a hb)]

/-- C5: every execution of `handle_call(tool_name, args)` appends the call
record to `call_log` first, signals every pending expectation whose
`tool_name` matches, and only then starts the latency sleep (phases along the
trace are monotone: arrival steps = 0, the sleep = 1, the return = 2), for
every latency and failure draw.  A concurrent `wait_for_call` for that tool
therefore unblocks on call arrival, not on completion of the mocked call. -/
theorem handle_call_signals_before_sleep (reg : MockToolRegistry)
    (tool_name : String) (args : List (String × JsonVal))
    (latency_draw failure_draw : ℚ) :
    (reg.handle_call_trace tool_name args latency_draw failure_draw).head?
      = some (.append_log ⟨tool_name, args, reg.clock_now⟩) ∧
    (∀ t ∈ reg.pending_expectations, t = tool_name →
      RegistryStep.signal t
        ∈ reg.handle_call_trace tool_name args latency_draw failure_draw) ∧
    ((reg.handle_call_trace tool_name args latency_draw failure_draw).map
      RegistryStep.phase).Sorted (· ≤ ·) := by
  have hmem : ∀ t ∈ reg.pending_expectations, t = tool_name →
      RegistryStep.signal t
        ∈ (reg.pending_expectations.filter (fun s => s == tool_name)).map
            RegistryStep.signal := by
    intro t ht heq
    exact List.mem_map_of_mem RegistryStep.signal
      (List.mem_filter.mpr ⟨ht, by simp [heq]⟩)
  have hzero : ∀ x ∈ ((reg.pending_expectations.filter
      (fun s => s == tool_name)).map RegistryStep.signal).map
        RegistryStep.phase, x = 0 := by
    intro x hx
    simp only [List.map_map, List.mem_map] at hx
    obtain ⟨t, _, hx⟩ := hx
    simpa [RegistryStep.phase] using hx.symm
  cases hlook : reg.tools.lookup tool_name with
  | none =>
    have htr : reg.handle_call_trace tool_name args latency_draw failure_draw
        = RegistryStep.append_log ⟨tool_name, args, reg.clock_now⟩ ::
            ((reg.pending_expectations.filter (fun t => t == tool_name)).map
              RegistryStep.signal ++
             [RegistryStep.return_result
               ⟨false, none, some ("Unknown tool: " ++ tool_name), 0⟩]) := by
      simp [MockToolRegistry.handle_call_trace, hlook]
    rw [htr]
    refine ⟨rfl, fun t ht heq => ?_, ?_⟩
    · exact List.mem_cons_of_mem _ (List.mem_append_left _ (hmem t ht heq))
    · rw [List.map_cons, List.sorted_cons]
      constructor
      · intro b hb
        exact Nat.zero_le b
      · rw [List.map_append]
        refine List.pairwise_append.mpr
          ⟨sorted_of_all_eq_zero _ hzero, ?_, ?_⟩
        · simp [RegistryStep.phase]
        · intro a ha b hb
          rw [hzero a ha]
          exact Nat.zero_le b
  | some mock =>
    have htr : reg.handle_call_trace tool_name args latency_draw failure_draw
        = RegistryStep.append_log ⟨tool_name, args, reg.clock_now⟩ ::
            ((reg.pending_expectations.filter (fun t => t == tool_name)).map
              RegistryStep.signal ++
             RegistryStep.latency_sleep (latency_draw / 1000) ::
             (if failure_draw < mock.failure_rate then
               [RegistryStep.return_result
                 ⟨false, none, some mock.failure_error, latency_draw / 1000 * 1000⟩]
              else
               [RegistryStep.return_result
                 ⟨true, some (mock.handler args), none, latency_draw / 1000 * 1000⟩])) := by
      simp [MockToolRegistry.handle_call_trace, hlook]
    rw [htr]
    refine ⟨rfl, fun t ht heq => ?_, ?_⟩
    · exact List.mem_cons_of_mem _ (List.mem_append_left _ (hmem t ht heq))
    · rw [List.map_cons, List.sorted_cons]
      constructor
      · intro b hb
        exact Nat.zero_le b
      · rw [List.map_append]
        refine List.pairwise_append.mpr
          ⟨sorted_of_all_eq_zero _ hzero, ?_, ?_⟩
        · by_cases hf : failure_draw < mock.failure_rate <;>
            simp [hf, RegistryStep.phase, List.sorted_cons]
        · intro a ha b hb
          rw [hzero a ha]
          exact Nat.zero_le b

/-- Witness for C5 at a concrete registry (`c5_registry`) with a registered
tool and a matching pending expectation: the matching expectation's signal is
on the trace. -/
theorem handle_call_signals_before_sleep_witness :
    RegistryStep.signal "get_weather"
      ∈ c5_registry.handle_call_trace "get_weather" [] 250 (1/2) :=
  (handle_call_signals_before_sleep c5_registry "get_weather" [] 250
    (1/2)).2.1 "get_weather" (by decide) rfl

/-- C6: for every clock state in which each registered waiter still lies in
the future (true of every reachable state, see the preservation lemmas
below), `advance_to x` ends at `now = max old x` — never moving time
backward — keeps exactly the waiters whose targets are still in the future,
and signals (event set) every registered waiter whose target is `≤` the new
time before returning. -/
theorem advance_to_spec (c : SimulatedClock) (x : ℚ)
    (hinv : ∀ w ∈ c.waiters, c.current < w.target) :
    (c.advance_to x).1.now = max c.current x ∧
    c.current ≤ (c.advance_to x).1.now ∧
    (c.advance_to x).1.waiters
      = c.waiters.filter (fun w => decide (max c.current x < w.target)) ∧
    (c.advance_to x).2
      = (c.waiters.filter (fun w => decide (w.target ≤ max c.current x))).map
          (fun w => { w with event_set := true }) ∧
    (∀ w ∈ (c.advance_to x).2, w.event_set = true) := by
  by_cases hle : x ≤ c.current
  · have hmax : max c.current x = c.current := max_eq_left hle
    have hadv : c.advance_to x = (c, []) := by
      simp [SimulatedClock.advance_to, hle]
    rw [hadv, hmax]
    refine ⟨rfl, le_refl _, ?_, ?_, by simp⟩
    · symm
      apply List.filter_eq_self.mpr
      intro w hw
      simpa using hinv w hw
    · symm
      simp only [List.map_eq_nil_iff, List.filter_eq_nil_iff]
      intro w hw
      simpa using not_le.mpr (hinv w hw)
  · have hlt : c.current < x := lt_of_not_le hle
    have hmax : max c.current x = x := max_eq_right (le_of_lt hlt)
    have hadv : c.advance_to x
        = SimulatedClock.wake_waiters { c with current := x } := by
      simp [SimulatedClock.advance_to, hle]
    rw [hadv, hmax]
    refine ⟨rfl, le_of_lt hlt, rfl, rfl, ?_⟩
    intro w hw
    simp only [SimulatedClock.wake_waiters, List.mem_map] at hw
    obtain ⟨w0, _, hw0⟩ := hw
    rw [← hw0]

/-- The future-waiters invariant is established by `wait_until` registration
(it only registers targets strictly above the current time). -/
theorem wait_until_register_preserves_inv (c : SimulatedClock) (target : ℚ)
    (hinv : ∀ w ∈ c.waiters, c.current < w.target) :
    ∀ w ∈ (c.wait_until_register target).waiters,
      (c.wait_until_register target).current < w.target := by
  intro w hw
  unfold SimulatedClock.wait_until_register at hw ⊢
  by_cases hge : c.current ≥ target
  · rw [if_pos hge] at hw ⊢
    exact hinv w hw
  · rw [if_neg hge] at hw ⊢
    rcases List.mem_append.mp hw with h | h
    · exact hinv w h
    · simp only [List.mem_singleton] at h
      subst h
      exact lt_of_not_le (by simpa using hge)

/-- The future-waiters invariant is preserved by `advance_to`: the woken
waiters are removed and only strictly-future targets remain. -/
theorem advance_to_preserves_inv (c : SimulatedClock) (x : ℚ)
    (hinv : ∀ w ∈ c.waiters, c.current < w.target) :
    ∀ w ∈ (c.advance_to x).1.waiters,
      (c.advance_to x).1.current < w.target := by
  intro w hw
  unfold SimulatedClock.advance_to at hw ⊢
  by_cases hle : x ≤ c.current
  · rw [if_pos hle] at hw ⊢
    exact hinv w hw
  · rw [if_neg hle] at hw ⊢
    simp only [SimulatedClock.wake_waiters, List.mem_filter] at hw
    simpa using hw.2

/-- Witness for C6 at the concrete clock `⟨0, false, [⟨2, false⟩, ⟨5, false⟩]⟩`
advanced to time 3: the waiter at 2 is signalled, the waiter at 5 remains. -/
theorem advance_to_spec_witness :
    (SimulatedClock.advance_to ⟨0, false, [⟨2, false⟩, ⟨5, false⟩]⟩ 3).1.now
      = max 0 3 ∧
    (0 : ℚ) ≤ (SimulatedClock.advance_to ⟨0, false, [⟨2, false⟩, ⟨5, false⟩]⟩ 3).1.now ∧
    (SimulatedClock.advance_to ⟨0, false, [⟨2, false⟩, ⟨5, false⟩]⟩ 3).1.waiters
      = ([⟨2, false⟩, ⟨5, false⟩] : List ClockWaiter).filter
          (fun w => decide (max 0 3 < w.target)) ∧
    (SimulatedClock.advance_to ⟨0, false, [⟨2, false⟩, ⟨5, false⟩]⟩ 3).2
      = (([⟨2, false⟩, ⟨5, false⟩] : List ClockWaiter).filter
          (fun w => decide (w.target ≤ max 0 3))).map
            (fun w => { w with event_set := true }) ∧
    (∀ w ∈ (SimulatedClock.advance_to ⟨0, false, [⟨2, false⟩, ⟨5, false⟩]⟩ 3).2,
      w.event_set = true) :=
  advance_to_spec ⟨0, false, [⟨2, false⟩, ⟨5, false⟩]⟩ 3 (by decide)

/-- C7: with `loss_rate = 1.0` and the link connected, `apply` returns DROP
(`none`) for every chunk and every `random.random()` draw (which always lies
in `[0, 1)`, hence below the loss rate), leaving the simulator state
unchanged; consequently a `user_speak` event routed through this network
layer pushes no audio chunk to the SUT at all, for any environment layer and
any RNG oracle. -/
theorem network_loss_one_drops_all :
    (∀ (st : NetworkSimulator) (chunk : AudioChunk) (loss_draw gauss_draw : ℚ),
      st.is_connected = true → st.loss_rate = 1 →
      0 ≤ loss_draw → loss_draw < 1 →
      st.apply chunk loss_draw gauss_draw = (none, st)) ∧
    (∀ (env : Option NoiseEngine) (st : NetworkSimulator)
      (chunks : List AudioChunk) (noise_oracle : ℕ → List ℤ × List (List ℤ))
      (net_oracle : ℕ → ℚ × ℚ) (i : ℕ),
      st.is_connected = true → st.loss_rate = 1 →
      (∀ n, 0 ≤ (net_oracle n).1 ∧ (net_oracle n).1 < 1) →
      push_audio_stream env (some st) chunks noise_oracle net_oracle i = []) := by
  have happly : ∀ (st : NetworkSimulator) (chunk : AudioChunk)
      (ld gd : ℚ), st.is_connected = true → st.loss_rate = 1 →
      0 ≤ ld → ld < 1 → st.apply chunk ld gd = (none, st) := by
    intro st chunk ld gd hconn hloss h0 h1
    unfold NetworkSimulator.apply
    rw [if_neg (by simp [hconn]), if_pos (by rw [hloss]; exact h1)]
  refine ⟨happly, ?_⟩
  intro env st chunks noise_oracle net_oracle i hconn hloss hdraws
  induction chunks generalizing env i with
  | nil => rfl
  | cons c rest ih =>
    have hstep : ∀ (chunkC : AudioChunk) (amb : List ℤ) (tcs : List (List ℤ)),
        (speak_step env (some st) chunkC amb tcs (net_oracle i).1
          (net_oracle i).2).1 = none ∧
        (speak_step env (some st) chunkC amb tcs (net_oracle i).1
          (net_oracle i).2).2.2 = some st := by
      intro chunkC amb tcs
      cases env <;>
        simp [speak_step,
          happly _ _ _ _ hconn hloss (hdraws i).1 (hdraws i).2]
    rw [show push_audio_stream env (some st) (c :: rest) noise_oracle
          net_oracle i
        = (match (speak_step env (some st) c (noise_oracle i).1
            (noise_oracle i).2 (net_oracle i).1 (net_oracle i).2).1 with
          | none => push_audio_stream
              (speak_step env (some st) c (noise_oracle i).1 (noise_oracle i).2
                (net_oracle i).1 (net_oracle i).2).2.1
              (speak_step env (some st) c (noise_oracle i).1 (noise_oracle i).2
                (net_oracle i).1 (net_oracle i).2).2.2
              rest noise_oracle net_oracle (i + 1)
          | some c1 => c1 :: push_audio_stream
              (speak_step env (some st) c (noise_oracle i).1 (noise_oracle i).2
                (net_oracle i).1 (net_oracle i).2).2.1
              (speak_step env (some st) c (noise_oracle i).1 (noise_oracle i).2
                (net_oracle i).1 (net_oracle i).2).2.2
              rest noise_oracle net_oracle (i + 1)) from rfl]
    rw [(hstep c (noise_oracle i).1 (noise_oracle i).2).1,
      (hstep c (noise_oracle i).1 (noise_oracle i).2).2]
    exact ih _ (i + 1)

/-- Witness for C7 at a concrete simulator with `loss_rate = 1` and a
two-chunk stream with concrete RNG draws: `apply` drops and the pipeline
pushes nothing. -/
theorem network_loss_one_drops_all_witness :
    (NetworkSimulator.init "perfect" none none (some 1) none).apply
        ⟨[1, 2], 0, 16000⟩ (1/2) 7
      = (none, NetworkSimulator.init "perfect" none none (some 1) none) ∧
    push_audio_stream none
      (some (NetworkSimulator.init "perfect" none none (some 1) none))
      [⟨[1, 2], 0, 16000⟩, ⟨[3], 1, 16000⟩]
      (fun _ => ([], [])) (fun _ => (1/2, 7)) 0 = [] :=
  ⟨network_loss_one_drops_all.1
    (NetworkSimulator.init "perfect" none none (some 1) none)
    ⟨[1, 2], 0, 16000⟩ (1/2) 7 rfl rfl (by norm_num) (by norm_num),
   network_loss_one_drops_all.2 none
    (NetworkSimulator.init "perfect" none none (some 1) none)
    [⟨[1, 2], 0, 16000⟩, ⟨[3], 1, 16000⟩]
    (fun _ => ([], [])) (fun _ => (1/2, 7)) 0 rfl rfl
    (fun _ => ⟨by norm_num, by norm_num⟩)⟩

/-- Clipping leaves an in-range int16 value unchanged. -/
theorem clip16_eq_self (x : ℤ) (h1 : -32768 ≤ x) (h2 : x ≤ 32767) :
    clip16 x = x := by
  unfold clip16
  rw [min_eq_right h2, max_eq_right h1]

/-- Adding an all-zero layer of the same length is the identity. -/
theorem zipWith_add_zeros (speech : List ℤ) :
    ∀ zeros : List ℤ, (∀ x ∈ zeros, x = 0) → zeros.length = speech.length →
      List.zipWith (· + ·) speech zeros = speech := by
  induction speech with
  | nil => intro zeros _ _; simp
  | cons s rest ih =>
    intro zeros hz hlen
    cases zeros with
    | nil => simp at hlen
    | cons z zs =>
      simp only [List.zipWith_cons_cons]
      rw [hz z (List.mem_cons_self z zs), add_zero,
        ih zs (fun x hx => hz x (List.mem_cons_of_mem z hx)) (by simpa using hlen)]

/-- Clipping a list of in-range int16 samples is the identity. -/
theorem map_clip16_eq_self (l : List ℤ)
    (h : ∀ s ∈ l, -32768 ≤ s ∧ s ≤ 32767) : l.map clip16 = l := by
  induction l with
  | nil => rfl
  | cons s rest ih =>
    simp only [List.map_cons]
    rw [clip16_eq_self s (h s (List.mem_cons_self s rest)).1
        (h s (List.mem_cons_self s rest)).2,
      ih fun x hx => h x (List.mem_cons_of_mem s hx)]

/-- C8: when the ambient layer produces all-zero samples and no transients
are active, `mix_with_speech` returns a chunk whose sample data equals the
input bit-for-bit, with the same timestamp and sample rate. -/
theorem mix_zero_ambient_identity (eng : NoiseEngine) (chunk : AudioChunk)
    (ambient : List ℤ)
    (hactive : eng.active_transients.filter (fun t => t.is_active) = [])
    (hlen : ambient.length = chunk.data.length)
    (hzero : ∀ x ∈ ambient, x = 0)
    (hrange : ∀ s ∈ chunk.data, -32768 ≤ s ∧ s ≤ 32767) :
    (eng.mix_with_speech chunk ambient []).1 = chunk ∧
    (eng.mix_with_speech chunk ambient []).1.timestamp = chunk.timestamp ∧
    (eng.mix_with_speech chunk ambient []).1.sample_rate = chunk.sample_rate := by
  have hdata : (eng.mix_with_speech chunk ambient []).1
      = ⟨chunk.data, chunk.timestamp, chunk.sample_rate⟩ := by
    unfold NoiseEngine.mix_with_speech
    simp only [List.foldl_cons, List.foldl_nil]
    rw [zipWith_add_zeros chunk.data ambient hzero hlen,
      map_clip16_eq_self chunk.data hrange]
  refine ⟨?_, by rw [hdata], by rw [hdata]⟩
  rw [hdata]

/-- Witness for C8 at a concrete engine (whose single transient is already
expired, so none is active) and a concrete three-sample chunk including both
int16 extremes, against an all-zero ambient draw. -/
theorem mix_zero_ambient_identity_witness :
    ((NoiseEngine.mk 16000 [⟨"dog_bark", 1, -8, 2, 16000⟩]
        ⟨"quiet_room", 40, 16000⟩).mix_with_speech
      ⟨[5, -32768, 32767], 7, 16000⟩ [0, 0, 0] []).1
      = ⟨[5, -32768, 32767], 7, 16000⟩ ∧
    ((NoiseEngine.mk 16000 [⟨"dog_bark", 1, -8, 2, 16000⟩]
        ⟨"quiet_room", 40, 16000⟩).mix_with_speech
      ⟨[5, -32768, 32767], 7, 16000⟩ [0, 0, 0] []).1.timestamp
      = (7 : ℚ) ∧
    ((NoiseEngine.mk 16000 [⟨"dog_bark", 1, -8, 2, 16000⟩]
        ⟨"quiet_room", 40, 16000⟩).mix_with_speech
      ⟨[5, -32768, 32767], 7, 16000⟩ [0, 0, 0] []).1.sample_rate = 16000 :=
  mix_zero_ambient_identity
    (NoiseEngine.mk 16000 [⟨"dog_bark", 1, -8, 2, 16000⟩]
      ⟨"quiet_room", 40, 16000⟩)
    ⟨[5, -32768, 32767], 7, 16000⟩ [0, 0, 0]
    (by decide) (by decide) (by decide) (by decide)

/-- The unchanged list only ever grows, by appends at the tail. -/
theorem regression_step_unchanged_mono (threshold : ℚ)
    (baseline : List (String × ℚ))
    (acc : List RegressionEntry × List RegressionEntry × List String)
    (kv : String × ℚ) :
    ∃ tail, (regression_step threshold baseline acc kv).2.2
      = acc.2.2 ++ tail := by
  unfold regression_step
  cases baseline.lookup kv.1 with
  | none => exact ⟨[], by simp⟩
  | some b =>
    by_cases hb0 : b = 0
    · exact ⟨[kv.1], by simp [hb0]⟩
    · by_cases hlt : (kv.2 - b) / |b| < -threshold
      · exact ⟨[], by simp [hb0, hlt]⟩
      · by_cases hgt : (kv.2 - b) / |b| > threshold
        · exact ⟨[], by simp [hb0, hlt, hgt]⟩
        · exact ⟨[kv.1], by simp [hb0, hlt, hgt]⟩

/-- A key already classified as unchanged stays unchanged through the rest
of the fold. -/
theorem regression_fold_unchanged_mono (threshold : ℚ)
    (baseline : List (String × ℚ)) :
    ∀ (metrics : List (String × ℚ))
      (acc : List RegressionEntry × List RegressionEntry × List String)
      (key : String), key ∈ acc.2.2 →
      key ∈ (metrics.foldl (regression_step threshold baseline) acc).2.2 := by
  intro metrics
  induction metrics with
  | nil => intro acc key h; exact h
  | cons kv rest ih =>
    intro acc key h
    rw [List.foldl_cons]
    apply ih
    obtain ⟨tail, htail⟩ :=
      regression_step_unchanged_mono threshold baseline acc kv
    rw [htail]
    exact List.mem_append_left _ h

/-- One loop step either leaves the regression (resp. improvement) list
unchanged or appends one entry whose metric is the current key and whose
baseline is the non-zero looked-up value. -/
theorem regression_step_append_forms (threshold : ℚ)
    (baseline : List (String × ℚ))
    (acc : List RegressionEntry × List RegressionEntry × List String)
    (kv : String × ℚ) :
    ((regression_step threshold baseline acc kv).1 = acc.1 ∨
      ∃ b, baseline.lookup kv.1 = some b ∧ b ≠ 0 ∧
        (regression_step threshold baseline acc kv).1
          = acc.1 ++ [⟨kv.1, b, kv.2, (kv.2 - b) / |b| * 100⟩]) ∧
    ((regression_step threshold baseline acc kv).2.1 = acc.2.1 ∨
      ∃ b, baseline.lookup kv.1 = some b ∧ b ≠ 0 ∧
        (regression_step threshold baseline acc kv).2.1
          = acc.2.1 ++ [⟨kv.1, b, kv.2, (kv.2 - b) / |b| * 100⟩]) := by
  unfold regression_step
  cases hkb : baseline.lookup kv.1 with
  | none => exact ⟨Or.inl rfl, Or.inl rfl⟩
  | some b =>
    by_cases hb0 : b = 0
    · refine ⟨Or.inl ?_, Or.inl ?_⟩ <;> simp [hb0]
    · by_cases hlt : (kv.2 - b) / |b| < -threshold
      · refine ⟨Or.inr ⟨b, rfl, hb0, ?_⟩, Or.inl ?_⟩ <;> simp [hb0, hlt]
      · by_cases hgt : (kv.2 - b) / |b| > threshold
        · refine ⟨Or.inl ?_, Or.inr ⟨b, rfl, hb0, ?_⟩⟩ <;>
            simp [hb0, hlt, hgt]
        · refine ⟨Or.inl ?_, Or.inl ?_⟩ <;> simp [hb0, hlt, hgt]

/-- A key whose baseline is zero never enters the regression or improvement
lists during the fold. -/
theorem regression_fold_no_zero_key (threshold : ℚ)
    (baseline : List (String × ℚ)) (key : String)
    (hb : baseline.lookup key = some 0) :
    ∀ (metrics : List (String × ℚ))
      (acc : List RegressionEntry × List RegressionEntry × List String),
      (∀ e ∈ acc.1, e.metric ≠ key) → (∀ e ∈ acc.2.1, e.metric ≠ key) →
      (∀ e ∈ (metrics.foldl (regression_step threshold baseline) acc).1,
        e.metric ≠ key) ∧
      (∀ e ∈ (metrics.foldl (regression_step threshold baseline) acc).2.1,
        e.metric ≠ key) := by
  intro metrics
  induction metrics with
  | nil => intro acc h1 h2; exact ⟨h1, h2⟩
  | cons kv rest ih =>
    intro acc h1 h2
    rw [List.foldl_cons]
    have hforms := regression_step_append_forms threshold baseline acc kv
    have hnewkey : ∀ b, baseline.lookup kv.1 = some b → b ≠ 0 → kv.1 ≠ key := by
      intro b hkb hb0 he
      rw [he, hb] at hkb
      exact hb0 (Option.some.inj hkb).symm
    refine ih _ ?_ ?_
    · rcases hforms.1 with h | ⟨b, hkb, hb0, h⟩
      · rw [h]; exact h1
      · rw [h]
        intro e he
        rcases List.mem_append.mp he with h' | h'
        · exact h1 e h'
        · rw [List.mem_singleton] at h'
          subst h'
          exact hnewkey b hkb hb0
    · rcases hforms.2 with h | ⟨b, hkb, hb0, h⟩
      · rw [h]; exact h2
      · rw [h]
        intro e he
        rcases List.mem_append.mp he with h' | h'
        · exact h2 e h'
        · rw [List.mem_singleton] at h'
          subst h'
          exact hnewkey b hkb hb0

/-- A metric key with a zero baseline is classified as unchanged by the fold
whenever it appears among the current metrics. -/
theorem regression_fold_key_unchanged (threshold : ℚ)
    (baseline : List (String × ℚ)) (key : String) (c : ℚ)
    (hb : baseline.lookup key = some 0) :
    ∀ (metrics : List (String × ℚ))
      (acc : List RegressionEntry × List RegressionEntry × List String),
      (key, c) ∈ metrics →
      key ∈ (metrics.foldl (regression_step threshold baseline) acc).2.2 := by
  intro metrics
  induction metrics with
  | nil => intro acc h; simp at h
  | cons kv rest ih =>
    intro acc h
    rw [List.foldl_cons]
    rcases List.mem_cons.mp h with h | h
    · have hstep : (regression_step threshold baseline acc kv).2.2
          = acc.2.2 ++ [key] := by
        rw [← h]
        simp [regression_step, hb]
      exact regression_fold_unchanged_mono threshold baseline rest _ key
        (by rw [hstep]; exact List.mem_append_right _ (List.mem_singleton.mpr rfl))
    · exact ih _ h

/-- C9: `RegressionDetector.check` never divides by a zero baseline — every
metric whose stored baseline equals 0 is classified as unchanged regardless
of its current value, never appears among the regressions or improvements,
and therefore can never be the entry that sets `has_regression`. -/
theorem regression_check_zero_baseline (threshold : ℚ)
    (metrics baseline : List (String × ℚ)) (key : String) (c : ℚ)
    (hmem : (key, c) ∈ metrics) (hb : baseline.lookup key = some 0) :
    key ∈ (regression_check threshold metrics baseline).unchanged ∧
    (∀ e ∈ (regression_check threshold metrics baseline).regressions,
      e.metric ≠ key) ∧
    (∀ e ∈ (regression_check threshold metrics baseline).improvements,
      e.metric ≠ key) ∧
    ((regression_check threshold metrics baseline).has_regression = true →
      ∃ e ∈ (regression_check threshold metrics baseline).regressions,
        e.metric ≠ key) := by
  have hno := regression_fold_no_zero_key threshold baseline key hb metrics
    ([], [], []) (by simp) (by simp)
  have hun := regression_fold_key_unchanged threshold baseline key c hb metrics
    ([], [], []) hmem
  refine ⟨hun, hno.1, hno.2, ?_⟩
  intro hreg
  have hne : (metrics.foldl (regression_step threshold baseline)
      ([], [], [])).1 ≠ [] := by
    intro hnil
    rw [show (regression_check threshold metrics baseline).has_regression
        = !(metrics.foldl (regression_step threshold baseline)
            ([], [], [])).1.isEmpty from rfl, hnil] at hreg
    simp at hreg
  obtain ⟨e, he⟩ := List.exists_mem_of_ne_nil _ hne
  exact ⟨e, he, hno.1 e he⟩

/-- Witness for C9 at a concrete check with threshold 1: baseline
`pass_rate = 0` makes `pass_rate` unchanged, whatever the other metrics
do. -/
theorem regression_check_zero_baseline_witness :
    "pass_rate" ∈ (regression_check 1
        [("pass_rate", 3), ("latency_p50", 100)]
        [("pass_rate", 0), ("latency_p50", 200)]).unchanged ∧
    (∀ e ∈ (regression_check 1
        [("pass_rate", 3), ("latency_p50", 100)]
        [("pass_rate", 0), ("latency_p50", 200)]).regressions,
      e.metric ≠ "pass_rate") ∧
    (∀ e ∈ (regression_check 1
        [("pass_rate", 3), ("latency_p50", 100)]
        [("pass_rate", 0), ("latency_p50", 200)]).improvements,
      e.metric ≠ "pass_rate") ∧
    ((regression_check 1
        [("pass_rate", 3), ("latency_p50", 100)]
        [("pass_rate", 0), ("latency_p50", 200)]).has_regression = true →
      ∃ e ∈ (regression_check 1
          [("pass_rate", 3), ("latency_p50", 100)]
          [("pass_rate", 0), ("latency_p50", 200)]).regressions,
        e.metric ≠ "pass_rate") :=
  regression_check_zero_baseline 1
    [("pass_rate", 3), ("latency_p50", 100)]
    [("pass_rate", 0), ("latency_p50", 200)]
    "pass_rate" 3 (by decide) (by decide)

end VoiceTest
